import Mathlib

/-!
Verification of the matchmaking / signaling server (`app.js`).

The server keeps four pieces of mutable state:
  * `waitingQueue`   : an array of user ids (FIFO queue of unmatched users);
  * `userSockets`    : a map from user id to its live WebSocket handle;
  * `currentPartner` : a map from user id to `{id: partnerId, startTime}`;
  * pending `setTimeout` callbacks that re-enqueue a hung-up partner.

We embed this state shallowly: the maps become association lists with
JavaScript object semantics (assignment overwrites, `delete` removes the
key), sockets become a record of the observable flags (`isAlive` for the
ping/pong keepalive, and `sendOk` modelling whether `socket.send` throws),
and every event handler of the source becomes a pure state-transformer.
Delivered messages, saved `Connection` records and scheduled timers are
accumulated in logs so that theorems can talk about them.
-/


/-! ## Data model, state, and the embedded operations of the server -/

abbrev UserId := String

/-- The value stored in `currentPartner[userId]`: `{id: partnerId, startTime: new Date()}`. -/
structure Link where
  id : UserId
  startTime : Nat
  deriving DecidableEq, Repr

/-- Observable state of a WebSocket handle: the keepalive flag `ws.isAlive`
and whether `ws.send` succeeds (a failed send throws, which only
`tryMatch` catches). -/
structure Socket where
  sendOk : Bool
  isAlive : Bool
  deriving DecidableEq, Repr

/-- A saved `Connection` document: `{userId, partnerId, callDuration}`
(`callDuration` defaults to `0` for the record saved at match time). -/
structure CallRecord where
  userId : UserId
  partnerId : UserId
  callDuration : Nat
  deriving DecidableEq, Repr

/-- The three relayed WebRTC negotiation message kinds. -/
inductive SigKind where
  | offer | answer | candidate
  deriving DecidableEq, Repr

/-- Inbound client messages (after JSON parsing), as dispatched by the
`ws.on('message')` switch. `sig` carries the `to` field, the original
`from` field if the client supplied one (it is overwritten on forward),
and the remaining payload (`sdp`, etc.). -/
inductive InMsg where
  | sig (kind : SigKind) (toId : Option UserId) (origin : Option UserId) (payload : String)
  | netQuality (toId : Option UserId) (quality : Nat)
  | skip
  | hangup
  deriving DecidableEq, Repr

/-- Outbound server messages. `sigFwd` is the spread `{...data, from: userId}`:
the kind, the original `to` field and payload are kept, `from` is set to the
sender. `netQualityFwd` is the literal `{type:'networkQualityUpdate', quality}`
object built by the server: it carries no sender information. `ping` stands
for the transport-level keepalive probe. -/
inductive OutMsg where
  | activeUsers (value : Nat)
  | connected (id : UserId)
  | matched (partnerId : UserId) (role : Option String)
  | hangup
  | sigFwd (kind : SigKind) (toId : Option UserId) (origin : UserId) (payload : String)
  | netQualityFwd (quality : Nat)
  | ping
  deriving DecidableEq, Repr

/-- Association-list lookup, mirroring JavaScript `obj[k]`. -/
def alookup {β : Type} (m : List (UserId × β)) (k : UserId) : Option β :=
  match m with
  | [] => none
  | (k', v) :: t => if k' = k then some v else alookup t k

/-- JavaScript `delete obj[k]`. -/
def aerase {β : Type} (m : List (UserId × β)) (k : UserId) : List (UserId × β) :=
  m.filter (fun p => p.1 ≠ k)

/-- JavaScript `obj[k] = v` (overwrites any previous binding). -/
def ainsert {β : Type} (m : List (UserId × β)) (k : UserId) (v : β) : List (UserId × β) :=
  (k, v) :: aerase m k

/-- The server's global mutable state, together with observation logs:
`msgs` records every message actually delivered to a socket (in order),
`records` every saved `Connection` document, and `pendingTimers` the ids
whose `setTimeout(() => addUserToQueue(partnerId), delay)` callback has
been scheduled but has not fired yet.  `now` is the current clock used
for `new Date()`. -/
structure ServerState where
  waitingQueue : List UserId
  userSockets : List (UserId × Socket)
  currentPartner : List (UserId × Link)
  pendingTimers : List UserId
  msgs : List (UserId × OutMsg)
  records : List CallRecord
  now : Nat
  deriving DecidableEq, Repr

/-- `if (socket) socket.send(msg)`: delivery happens when the destination is
registered and its transport accepts the write; otherwise nothing happens
(the source never retries a failed send). -/
def sendTo (s : ServerState) (uid : UserId) (m : OutMsg) : ServerState :=
  match alookup s.userSockets uid with
  | some sock => if sock.sendOk then { s with msgs := s.msgs ++ [(uid, m)] } else s
  | none => s

/-- `removeFromQueue`: `indexOf` + `splice` removes the first occurrence. -/
def removeFromQueue (s : ServerState) (uid : UserId) : ServerState :=
  { s with waitingQueue := s.waitingQueue.erase uid }

/-- `sendOk` of an optional socket (`none` cannot be sent to). -/
def sockSendOk (o : Option Socket) : Bool :=
  match o with
  | some sock => sock.sendOk
  | none => false

/-- Body of one iteration of the `while (waitingQueue.length >= 2)` loop of
`tryMatch`, with the two popped ids `a`, `b` and the remaining queue `rest`.
Mirrors the source: pop `a` and `b` from the head; if either socket is
missing or either user already has a partner, push each still-valid
unpartnered one back to the tail and continue; otherwise create the two
symmetric `currentPartner` entries, save the `Connection` record, and
send the four notifications `matched(caller)/matched/activeUsers/activeUsers`
inside `try` — on a send failure the `catch` pushes both users back to the
tail (their partner entries are left in place, exactly as in the source). -/
def matchBody (s : ServerState) (a b : UserId) (rest : List UserId) : ServerState :=
  let sa := alookup s.userSockets a
  let sb := alookup s.userSockets b
  let pa := alookup s.currentPartner a
  let pb := alookup s.currentPartner b
  if sa.isNone || sb.isNone || pa.isSome || pb.isSome then
    let q1 := if sa.isSome && pa.isNone then rest ++ [a] else rest
    let q2 := if sb.isSome && pb.isNone then q1 ++ [b] else q1
    { s with waitingQueue := q2 }
  else
    let cp2 := ainsert (ainsert s.currentPartner a ⟨b, s.now⟩) b ⟨a, s.now⟩
    let n := s.userSockets.length
    let rec0 : CallRecord := ⟨a, b, 0⟩
    if sockSendOk sa && sockSendOk sb then
      { s with
        waitingQueue := rest,
        currentPartner := cp2,
        records := s.records ++ [rec0],
        msgs := s.msgs ++ [(a, .matched b (some "caller")), (b, .matched a none),
                           (a, .activeUsers n), (b, .activeUsers n)] }
    else
      { s with
        waitingQueue := rest ++ [a, b],
        currentPartner := cp2,
        records := s.records ++ [rec0],
        msgs := s.msgs ++
          (if sockSendOk sa then [(a, OutMsg.matched b (some "caller"))] else []) }

/-- One iteration of the `tryMatch` drain loop: `none` means the loop
exits (fewer than two users waiting), otherwise the body runs on the two
ids popped from the head of the queue. -/
def matchIteration (s : ServerState) : Option ServerState :=
  match s.waitingQueue with
  | a :: b :: rest => some (matchBody s a b rest)
  | _ => none

/-- The drain loop of `tryMatch`, running `matchIteration` until it exits.
The fuel argument is only a termination device: `tryMatch` below invokes it
with fuel that provably dominates the number of iterations
(`tryMatchGo_irrel`), so the `0` case is never the reason the loop stops. -/
def tryMatchGo : Nat → ServerState → ServerState
  | 0, s => s
  | fuel + 1, s =>
    match matchIteration s with
    | some s' => tryMatchGo fuel s'
    | none => s

/-- Strictly decreasing loop measure: queue length plus the number of queued
ids that do not yet hold a partner entry. -/
def tmMeasure (s : ServerState) : Nat :=
  s.waitingQueue.length +
    s.waitingQueue.countP (fun u => (alookup s.currentPartner u).isNone)

/-- `tryMatch` of the source: drain the waiting queue until fewer than two
users remain or no further valid pair can be formed. -/
def tryMatch (s : ServerState) : ServerState :=
  tryMatchGo (tmMeasure s) s

/-- `addUserToQueue`: push only if not already present, then run the
matching pass. -/
def addUserToQueue (s : ServerState) (uid : UserId) : ServerState :=
  if uid ∈ s.waitingQueue then s
  else tryMatch { s with waitingQueue := s.waitingQueue ++ [uid] }

/-- `handleHangup`: if the user has a partner, send the partner a `hangup`
message (when its socket is still registered), save a `Connection` record
with `callDuration = now - startTime`, delete both `currentPartner`
entries, and schedule the deferred `addUserToQueue(partnerId)`. -/
def handleHangup (s : ServerState) (uid : UserId) : ServerState :=
  match alookup s.currentPartner uid with
  | none => s
  | some link =>
    let s1 := sendTo s link.id .hangup
    let s2 := { s1 with
      records := s1.records ++ [(⟨uid, link.id, s.now - link.startTime⟩ : CallRecord)] }
    let s3 := { s2 with currentPartner := aerase (aerase s2.currentPartner link.id) uid }
    { s3 with pendingTimers := s3.pendingTimers ++ [link.id] }

/-- `handleSkip`: hang up, then immediately re-enqueue the skipper. -/
def handleSkip (s : ServerState) (uid : UserId) : ServerState :=
  addUserToQueue (handleHangup s uid) uid

/-- The `ws.on('message')` dispatch.  `offer`/`answer`/`candidate` are
forwarded to `data.to` (when registered) as `{...data, from: userId}`;
`networkQualityUpdate` is forwarded as `{type, quality}`; `skip` and
`hangup` run their handlers; anything else falls through the switch. -/
def handleMessage (s : ServerState) (senderId : UserId) (m : InMsg) : ServerState :=
  match m with
  | .sig kind toId _ payload =>
    match toId with
    | some t => sendTo s t (.sigFwd kind (some t) senderId payload)
    | none => s
  | .netQuality toId q =>
    match toId with
    | some t => sendTo s t (.netQualityFwd q)
    | none => s
  | .skip => handleSkip s senderId
  | .hangup => handleHangup s senderId

/-- The `ws.on('close')` handler: free the partner, remove from the queue,
unregister the socket. -/
def handleClose (s : ServerState) (uid : UserId) : ServerState :=
  let s1 := handleHangup s uid
  let s2 := removeFromQueue s1 uid
  { s2 with userSockets := aerase s2.userSockets uid }

/-- The `wss.on('connection')` handler: register the socket with
`isAlive = true`, enqueue the new user (which runs the matching pass), then
send it the current `activeUsers` count and its `connected` id. -/
def handleConnect (s : ServerState) (uid : UserId) (sendOk : Bool) : ServerState :=
  let s1 := { s with userSockets := ainsert s.userSockets uid ⟨sendOk, true⟩ }
  let s2 := addUserToQueue s1 uid
  let s3 := sendTo s2 uid (.activeUsers s2.userSockets.length)
  sendTo s3 uid (.connected uid)

/-- The `ws.on('pong')` handler: mark the connection alive again. -/
def handlePong (s : ServerState) (uid : UserId) : ServerState :=
  match alookup s.userSockets uid with
  | some sock => { s with userSockets := ainsert s.userSockets uid { sock with isAlive := true } }
  | none => s

/-- One socket's share of the keepalive sweep: a connection whose `isAlive`
is false is terminated — which fires its `close` handler, i.e. the standard
disconnect teardown — otherwise `isAlive` is set to false and a ping is sent. -/
def sweepSocket (s : ServerState) (uid : UserId) : ServerState :=
  match alookup s.userSockets uid with
  | none => s
  | some sock =>
    if sock.isAlive then
      { s with
        userSockets := ainsert s.userSockets uid { sock with isAlive := false },
        msgs := s.msgs ++ [(uid, .ping)] }
    else
      handleClose s uid

/-- The `setInterval` keepalive sweep over all currently registered
connections. -/
def sweep (s : ServerState) : ServerState :=
  (s.userSockets.map Prod.fst).foldl sweepSocket s

/-- A deferred `setTimeout(() => addUserToQueue(partnerId), delay)` callback
firing: consume the pending timer and run `addUserToQueue` — which checks
only queue membership, not registration or pairing. -/
def fireTimer (s : ServerState) (uid : UserId) : ServerState :=
  if uid ∈ s.pendingTimers then
    addUserToQueue { s with pendingTimers := s.pendingTimers.erase uid } uid
  else s

/-- External events driving the server. `connect` carries the transport's
send health; `timerFire` is one scheduled re-enqueue coming due; `tick`
is the passage of wall-clock time. -/
inductive Event where
  | connect (id : UserId) (sendOk : Bool)
  | message (id : UserId) (m : InMsg)
  | close (id : UserId)
  | timerFire (id : UserId)
  | pong (id : UserId)
  | sweep
  | tick (dt : Nat)
  deriving DecidableEq, Repr

/-- The event-step function.  `message`, `close` and `pong` can only be
emitted by a currently registered connection (the handlers are attached to
live sockets), so they are no-ops otherwise. -/
def step (s : ServerState) : Event → ServerState
  | .connect id sendOk => handleConnect s id sendOk
  | .message id m => if (alookup s.userSockets id).isSome then handleMessage s id m else s
  | .close id => if (alookup s.userSockets id).isSome then handleClose s id else s
  | .timerFire id => fireTimer s id
  | .pong id => handlePong s id
  | .sweep => sweep s
  | .tick dt => { s with now := s.now + dt }

/-- The empty start state. -/
def initState : ServerState := ⟨[], [], [], [], [], [], 0⟩

/-- Reachable server states.  A `connect` event carries a freshly generated
id, which per the data model is unique, hence not currently registered. -/
inductive Reachable : ServerState → Prop where
  | init : Reachable initState
  | connect {s : ServerState} {id : UserId} {sendOk : Bool} :
      Reachable s → alookup s.userSockets id = none →
      Reachable (step s (.connect id sendOk))
  | message {s : ServerState} {id : UserId} {m : InMsg} :
      Reachable s → Reachable (step s (.message id m))
  | close {s : ServerState} {id : UserId} :
      Reachable s → Reachable (step s (.close id))
  | timerFire {s : ServerState} {id : UserId} :
      Reachable s → Reachable (step s (.timerFire id))
  | pong {s : ServerState} {id : UserId} :
      Reachable s → Reachable (step s (.pong id))
  | sweep {s : ServerState} :
      Reachable s → Reachable (step s .sweep)
  | tick {s : ServerState} {dt : Nat} :
      Reachable s → Reachable (step s (.tick dt))

/-- Symmetry of the partner directory: every entry points to an entry that
points back. -/
def symCP (cp : List (UserId × Link)) : Prop :=
  ∀ a la, alookup cp a = some la → ∃ lb, alookup cp la.id = some lb ∧ lb.id = a

/-- No id is paired with itself. -/
def noSelf (cp : List (UserId × Link)) : Prop :=
  ∀ a la, alookup cp a = some la → la.id ≠ a

/-- The master invariant: the partner directory is symmetric and
irreflexive, the waiting queue has no duplicates, and the socket registry
has no duplicate keys. -/
def ServerInv (s : ServerState) : Prop :=
  symCP s.currentPartner ∧ noSelf s.currentPartner ∧
    s.waitingQueue.Nodup ∧ (s.userSockets.map Prod.fst).Nodup

/-- Concrete two-user run used to instantiate the C7 theorem. -/
def c7State : ServerState :=
  step (step initState (.connect "a" true)) (.connect "b" true)

/-- Concrete reachable state used to instantiate the C4 theorem. -/
def c4State : ServerState :=
  step (step (step initState (.connect "a" true)) (.connect "b" true)) (.connect "e" true)

/-- Concrete reachable state (with the pair a-b formed) instantiating C10. -/
def c10State : ServerState :=
  step (step initState (.connect "a" true)) (.connect "b" true)

/-- Concrete reachable two-user state instantiating the C3 theorem. -/
def c3State : ServerState :=
  step (step initState (.connect "a" true)) (.connect "b" true)

/-- The reachable state refuting the second half of C3: users a and b pair,
a hangs up (scheduling the deferred re-enqueue of b), b immediately skips
(so b re-enters the queue), a new user c connects and is matched with b,
and then the deferred timer for b fires: `addUserToQueue(b)` checks only
queue membership, so b — currently paired with c — is pushed into the
waiting queue.  b is now simultaneously queued and paired. -/
def c3CtrState : ServerState :=
  step (step (step (step (step (step initState
    (.connect "a" true)) (.connect "b" true))
    (.message "a" .hangup)) (.message "b" .skip))
    (.connect "c" true)) (.timerFire "b")

/-- The failing run for C1: users a and b pair, a hangs up — scheduling the
deferred re-enqueue of b — then b's connection closes (b is unregistered
and removed from the registry), and finally the deferred timer fires.
`addUserToQueue(b)` re-checks only `waitingQueue.includes(b)`, not
registration or pairing, so the dead id b is pushed into the queue. -/
def c1CtrState : ServerState :=
  step (step (step (step (step initState
    (.connect "a" true)) (.connect "b" true))
    (.message "a" .hangup)) (.close "b")) (.timerFire "b")

/-- The failing run for C2: a connects with a transport whose sends fail,
b connects, the matching pass pops a and b, creates both `currentPartner`
entries, and the send to a throws.  The catch block requeues both ids but
does not delete the entries, so the continuing drain loop pops the pair
again, finds both "already partnered", and drops them from the queue. -/
def c2CtrState : ServerState :=
  step (step initState (.connect "a" false)) (.connect "b" true)

/-- Concrete instantiation of the C2 amended theorem: a waiting pair whose
first send fails. -/
def c2State : ServerState :=
  { waitingQueue := ["a", "b"],
    userSockets := [("a", ⟨false, true⟩), ("b", ⟨true, true⟩)],
    currentPartner := [], pendingTimers := [], msgs := [], records := [], now := 3 }

/-- The state refuting C6 as stated: a is paired with b while another valid
user e is already waiting in the queue. -/
def c6PreState : ServerState :=
  step (step (step initState (.connect "a" true)) (.connect "b" true)) (.connect "e" true)

def c6CtrState : ServerState := step c6PreState (.message "a" .skip)

/-- Concrete two-user state instantiating the C6 amended theorem. -/
def c6State : ServerState :=
  step (step initState (.connect "a" true)) (.connect "b" true)

/-- Concrete four-user waiting queue instantiating C5. -/
def c5State : ServerState :=
  { waitingQueue := ["a", "b", "c", "d"],
    userSockets := [("a", ⟨true, true⟩), ("b", ⟨true, true⟩),
                    ("c", ⟨true, true⟩), ("d", ⟨true, true⟩)],
    currentPartner := [], pendingTimers := [], msgs := [], records := [], now := 7 }

/-- Concrete one-user state instantiating the C8 amended theorem. -/
def c8State : ServerState := step initState (.connect "x" true)

/-- Reachable state with x, y, z connected (x and y got paired — the relay
forwards regardless of pairing), used for the C8 counterexample. -/
def c8CtrState : ServerState :=
  step (step (step initState (.connect "x" true)) (.connect "y" true)) (.connect "z" true)

/-- Concrete one-user state instantiating C9. -/
def c9State : ServerState := step initState (.connect "a" true)

/-! ## Theorems -/

theorem alookup_cons {β : Type} (k' u : UserId) (v : β) (t : List (UserId × β)) :
    alookup ((k', v) :: t) u = if k' = u then some v else alookup t u := rfl

theorem aerase_cons_self {β : Type} (k : UserId) (v : β) (t : List (UserId × β)) :
    aerase ((k, v) :: t) k = aerase t k := by simp [aerase]

theorem aerase_cons_ne {β : Type} (k' k : UserId) (v : β) (t : List (UserId × β))
    (h : k' ≠ k) : aerase ((k', v) :: t) k = (k', v) :: aerase t k := by
  simp [aerase, h]

theorem alookup_aerase {β : Type} (m : List (UserId × β)) (k u : UserId) :
    alookup (aerase m k) u = if u = k then none else alookup m u := by
  induction m with
  | nil => simp [aerase, alookup]
  | cons p t ih =>
    obtain ⟨k', v⟩ := p
    by_cases hk : k' = k
    · subst hk
      rw [aerase_cons_self, ih, alookup_cons]
      by_cases hu : u = k'
      · simp [hu]
      · have hne : k' ≠ u := fun h => hu h.symm
        simp [hu, hne]
    · rw [aerase_cons_ne k' k v t hk, alookup_cons, alookup_cons, ih]
      by_cases hku : k' = u
      · subst hku
        have hne : ¬ (k' = k) := hk
        simp [fun h => hk h]
      · simp [hku]

theorem alookup_ainsert_self {β : Type} (m : List (UserId × β)) (k : UserId) (v : β) :
    alookup (ainsert m k v) k = some v := by
  simp [ainsert, alookup]

theorem alookup_ainsert_ne {β : Type} (m : List (UserId × β)) (k u : UserId) (v : β)
    (h : u ≠ k) : alookup (ainsert m k v) u = alookup m u := by
  rw [ainsert, alookup_cons, alookup_aerase]
  have hne : k ≠ u := fun h2 => h h2.symm
  simp [hne, h]

theorem alookup_ainsert {β : Type} (m : List (UserId × β)) (k u : UserId) (v : β) :
    alookup (ainsert m k v) u = if u = k then some v else alookup m u := by
  by_cases h : u = k
  · subst h; simp [alookup_ainsert_self]
  · simp [alookup_ainsert_ne m k u v h, h]

theorem keys_aerase_sublist {β : Type} (m : List (UserId × β)) (k : UserId) :
    ((aerase m k).map Prod.fst).Sublist (m.map Prod.fst) := by
  exact List.Sublist.map Prod.fst (List.filter_sublist m)

theorem keys_nodup_aerase {β : Type} (m : List (UserId × β)) (k : UserId)
    (h : (m.map Prod.fst).Nodup) : ((aerase m k).map Prod.fst).Nodup :=
  (keys_aerase_sublist m k).nodup h

theorem not_mem_keys_aerase_self {β : Type} (m : List (UserId × β)) (k : UserId) :
    k ∉ (aerase m k).map Prod.fst := by
  intro hmem
  obtain ⟨p, hp, hp1⟩ := List.mem_map.mp hmem
  have := List.of_mem_filter hp
  simp [hp1] at this

theorem keys_nodup_ainsert {β : Type} (m : List (UserId × β)) (k : UserId) (v : β)
    (h : (m.map Prod.fst).Nodup) : ((ainsert m k v).map Prod.fst).Nodup := by
  simp only [ainsert, List.map_cons, List.nodup_cons]
  exact ⟨not_mem_keys_aerase_self m k, keys_nodup_aerase m k h⟩

theorem nodup_append_one {l : List UserId} {a : UserId}
    (h : l.Nodup) (ha : a ∉ l) : (l ++ [a]).Nodup := by
  simp [List.nodup_append, h, ha]

theorem nodup_append_two {l : List UserId} {a b : UserId}
    (h : l.Nodup) (ha : a ∉ l) (hb : b ∉ l) (hab : a ≠ b) : (l ++ [a, b]).Nodup := by
  simp [List.nodup_append, h, ha, hb, hab]

theorem inv_sendTo {s : ServerState} (h : ServerInv s) (u : UserId) (m : OutMsg) :
    ServerInv (sendTo s u m) := by
  unfold sendTo
  cases alookup s.userSockets u with
  | none => exact h
  | some sock =>
    by_cases hs : sock.sendOk <;> simp [hs] <;> exact h

theorem inv_removeFromQueue {s : ServerState} (h : ServerInv s) (u : UserId) :
    ServerInv (removeFromQueue s u) := by
  obtain ⟨h1, h2, h3, h4⟩ := h
  exact ⟨h1, h2, h3.erase u, h4⟩

theorem matchIteration_cons {s : ServerState} {a b : UserId} {rest : List UserId}
    (hq : s.waitingQueue = a :: b :: rest) :
    matchIteration s = some (matchBody s a b rest) := by
  unfold matchIteration; rw [hq]

theorem matchIteration_nil {s : ServerState} (hq : s.waitingQueue = []) :
    matchIteration s = none := by
  unfold matchIteration; rw [hq]

theorem matchIteration_one {s : ServerState} {x : UserId} (hq : s.waitingQueue = [x]) :
    matchIteration s = none := by
  unfold matchIteration; rw [hq]

theorem matchIteration_some {s s' : ServerState} (hmi : matchIteration s = some s') :
    ∃ a b rest, s.waitingQueue = a :: b :: rest ∧ s' = matchBody s a b rest := by
  unfold matchIteration at hmi
  split at hmi
  next a b rest heq => exact ⟨a, b, rest, heq, (Option.some_inj.mp hmi).symm⟩
  next => simp at hmi

theorem tryMatchGo_none {s : ServerState} (hmi : matchIteration s = none) :
    ∀ fuel, tryMatchGo fuel s = s := by
  intro fuel
  cases fuel with
  | zero => rfl
  | succ n => unfold tryMatchGo; rw [hmi]

theorem opt_none_of_isSome_false {α : Type} {o : Option α} (h : o.isSome = false) :
    o = none := by
  cases o <;> simp at h ⊢

theorem opt_some_of_isNone_false {α : Type} {o : Option α} (h : o.isNone = false) :
    ∃ x, o = some x := by
  cases o <;> simp at h ⊢

theorem countP_le_countP {p q : UserId → Bool} (l : List UserId)
    (h : ∀ x, p x = true → q x = true) : l.countP p ≤ l.countP q := by
  induction l with
  | nil => simp
  | cons a t ih =>
    rw [List.countP_cons, List.countP_cons]
    by_cases hpa : p a = true
    · simp [hpa, h a hpa]; omega
    · by_cases hqa : q a = true <;> simp [hpa, hqa] <;> omega

theorem unpaired_ainsert_imp (cp : List (UserId × Link)) (k : UserId) (v : Link) :
    ∀ x, (alookup (ainsert cp k v) x).isNone = true → (alookup cp x).isNone = true := by
  intro x h
  rw [alookup_ainsert] at h
  by_cases hx : x = k
  · simp [hx] at h
  · simpa [hx] using h

theorem tmMeasure_matchBody_lt {s : ServerState} {a b : UserId} {rest : List UserId}
    (hq : s.waitingQueue = a :: b :: rest) :
    tmMeasure (matchBody s a b rest) < tmMeasure s := by
  have hcp2 : ∀ (la lb : Link) (k k' : UserId),
      rest.countP (fun u => (alookup (ainsert (ainsert s.currentPartner k la) k' lb) u).isNone)
        ≤ rest.countP (fun u => (alookup s.currentPartner u).isNone) := by
    intro la lb k k'
    apply countP_le_countP
    intro x hx
    exact unpaired_ainsert_imp _ _ _ x (unpaired_ainsert_imp _ _ _ x hx)
  have hms : tmMeasure s =
      rest.length + 2 +
        (rest.countP (fun u => (alookup s.currentPartner u).isNone)
          + (if (alookup s.currentPartner b).isNone then 1 else 0)
          + (if (alookup s.currentPartner a).isNone then 1 else 0)) := by
    simp [tmMeasure, hq, List.countP_cons]
    try omega
  rw [hms]
  cases hsa : alookup s.userSockets a with
  | none =>
    cases hpb : alookup s.currentPartner b with
    | none =>
      cases hsb : alookup s.userSockets b with
      | none =>
        simp [matchBody, hsa, hsb, hpb, tmMeasure] <;> omega
      | some sockB =>
        simp [matchBody, hsa, hsb, hpb, tmMeasure, List.countP_append, List.countP_cons] <;> omega
    | some lb =>
      simp [matchBody, hsa, hpb, tmMeasure] <;> omega
  | some sockA =>
    cases hpa : alookup s.currentPartner a with
    | some la =>
      cases hpb : alookup s.currentPartner b with
      | none =>
        cases hsb : alookup s.userSockets b with
        | none =>
          simp [matchBody, hsa, hsb, hpa, hpb, tmMeasure] <;> omega
        | some sockB =>
          simp [matchBody, hsa, hsb, hpa, hpb, tmMeasure, List.countP_append,
            List.countP_cons] <;> omega
      | some lb =>
        simp [matchBody, hsa, hpa, hpb, tmMeasure] <;> omega
    | none =>
      cases hsb : alookup s.userSockets b with
      | none =>
        simp [matchBody, hsa, hsb, hpa, tmMeasure, List.countP_append, List.countP_cons] <;> omega
      | some sockB =>
        cases hpb : alookup s.currentPartner b with
        | some lb =>
          simp [matchBody, hsa, hsb, hpa, hpb, tmMeasure, List.countP_append,
            List.countP_cons] <;> omega
        | none =>
          have h1 := hcp2 ⟨b, s.now⟩ ⟨a, s.now⟩ a b
          have hB : (alookup (ainsert (ainsert s.currentPartner a ⟨b, s.now⟩) b
              ⟨a, s.now⟩) b).isNone = false := by
            rw [alookup_ainsert_self]; rfl
          have hA : (alookup (ainsert (ainsert s.currentPartner a ⟨b, s.now⟩) b
              ⟨a, s.now⟩) a).isNone = false := by
            by_cases hab : a = b
            · subst hab; rw [alookup_ainsert_self]; rfl
            · rw [alookup_ainsert_ne _ _ _ _ hab, alookup_ainsert_self]; rfl
          by_cases hok : (sockSendOk (some sockA) && sockSendOk (some sockB)) = true
          · simp [matchBody, hsa, hsb, hpa, hpb, hok, tmMeasure] <;> omega
          · simp only [Bool.not_eq_true] at hok
            simp [matchBody, hsa, hsb, hpa, hpb, hok, tmMeasure, List.countP_append,
              List.countP_cons, hA, hB] <;> omega

theorem tmMeasure_decrease {s s' : ServerState} (hmi : matchIteration s = some s') :
    tmMeasure s' < tmMeasure s := by
  obtain ⟨a, b, rest, hq, rfl⟩ := matchIteration_some hmi
  exact tmMeasure_matchBody_lt hq

/-- Fuel-irrelevance of the drain loop: any fuel at least the measure gives
the same result, so `tryMatch` below computes the true fixed point of the
`while` loop (the fuel never cuts an iteration short). -/
theorem tryMatchGo_irrel :
    ∀ (f g : Nat) (s : ServerState), tmMeasure s ≤ f → tmMeasure s ≤ g →
      tryMatchGo f s = tryMatchGo g s := by
  intro f
  induction f with
  | zero =>
    intro g s hf hg
    have hq : s.waitingQueue = [] := by
      have : s.waitingQueue.length = 0 := by
        unfold tmMeasure at hf; omega
      exact List.length_eq_zero.mp this
    rw [tryMatchGo_none (matchIteration_nil hq) 0, tryMatchGo_none (matchIteration_nil hq) g]
  | succ n ih =>
    intro g s hf hg
    cases hmi : matchIteration s with
    | none => rw [tryMatchGo_none hmi (n + 1), tryMatchGo_none hmi g]
    | some s' =>
      have hlt := tmMeasure_decrease hmi
      cases g with
      | zero =>
        exfalso
        omega
      | succ m =>
        show tryMatchGo (n + 1) s = tryMatchGo (m + 1) s
        unfold tryMatchGo
        rw [hmi]
        exact ih m s' (by omega) (by omega)

theorem sendTo_eq_self_of_none {s : ServerState} {u : UserId}
    (hs : alookup s.userSockets u = none) (m : OutMsg) : sendTo s u m = s := by
  unfold sendTo; rw [hs]

theorem sendTo_eq_self_of_bad {s : ServerState} {u : UserId} {sock : Socket}
    (hs : alookup s.userSockets u = some sock) (hok : sock.sendOk = false) (m : OutMsg) :
    sendTo s u m = s := by
  unfold sendTo; rw [hs]; simp [hok]

theorem sendTo_msgs_delivered {s : ServerState} {u : UserId} {sock : Socket}
    (hs : alookup s.userSockets u = some sock) (hok : sock.sendOk = true) (m : OutMsg) :
    sendTo s u m = { s with msgs := s.msgs ++ [(u, m)] } := by
  unfold sendTo; rw [hs]; simp [hok]

theorem sendTo_queue (s : ServerState) (u : UserId) (m : OutMsg) :
    (sendTo s u m).waitingQueue = s.waitingQueue := by
  unfold sendTo
  cases alookup s.userSockets u with
  | none => rfl
  | some sock => by_cases h : sock.sendOk <;> simp [h]

theorem sendTo_sockets (s : ServerState) (u : UserId) (m : OutMsg) :
    (sendTo s u m).userSockets = s.userSockets := by
  unfold sendTo
  cases alookup s.userSockets u with
  | none => rfl
  | some sock => by_cases h : sock.sendOk <;> simp [h]

theorem sendTo_partner (s : ServerState) (u : UserId) (m : OutMsg) :
    (sendTo s u m).currentPartner = s.currentPartner := by
  unfold sendTo
  cases alookup s.userSockets u with
  | none => rfl
  | some sock => by_cases h : sock.sendOk <;> simp [h]

theorem sendTo_timers (s : ServerState) (u : UserId) (m : OutMsg) :
    (sendTo s u m).pendingTimers = s.pendingTimers := by
  unfold sendTo
  cases alookup s.userSockets u with
  | none => rfl
  | some sock => by_cases h : sock.sendOk <;> simp [h]

theorem sendTo_records (s : ServerState) (u : UserId) (m : OutMsg) :
    (sendTo s u m).records = s.records := by
  unfold sendTo
  cases alookup s.userSockets u with
  | none => rfl
  | some sock => by_cases h : sock.sendOk <;> simp [h]

theorem sendTo_now (s : ServerState) (u : UserId) (m : OutMsg) :
    (sendTo s u m).now = s.now := by
  unfold sendTo
  cases alookup s.userSockets u with
  | none => rfl
  | some sock => by_cases h : sock.sendOk <;> simp [h]

theorem symCP_pair {cp : List (UserId × Link)} {a b : UserId} {t t' : Nat}
    (hsym : symCP cp) (hpa : alookup cp a = none) (hpb : alookup cp b = none)
    (hab : a ≠ b) :
    symCP (ainsert (ainsert cp a ⟨b, t⟩) b ⟨a, t'⟩) := by
  intro x lx hx
  rw [alookup_ainsert] at hx
  by_cases hxb : x = b
  · rw [if_pos hxb] at hx
    obtain rfl : (⟨a, t'⟩ : Link) = lx := Option.some_inj.mp hx
    refine ⟨⟨b, t⟩, ?_, hxb.symm⟩
    show alookup _ a = some _
    rw [alookup_ainsert_ne _ _ _ _ hab, alookup_ainsert_self]
  · rw [if_neg hxb, alookup_ainsert] at hx
    by_cases hxa : x = a
    · rw [if_pos hxa] at hx
      obtain rfl : (⟨b, t⟩ : Link) = lx := Option.some_inj.mp hx
      exact ⟨⟨a, t'⟩, alookup_ainsert_self _ _ _, hxa.symm⟩
    · rw [if_neg hxa] at hx
      obtain ⟨lb, hlb, hlbid⟩ := hsym x lx hx
      have hia : lx.id ≠ a := by
        intro he; rw [he, hpa] at hlb; cases hlb
      have hib : lx.id ≠ b := by
        intro he; rw [he, hpb] at hlb; cases hlb
      refine ⟨lb, ?_, hlbid⟩
      rw [alookup_ainsert_ne _ _ _ _ hib, alookup_ainsert_ne _ _ _ _ hia]
      exact hlb

theorem noSelf_pair {cp : List (UserId × Link)} {a b : UserId} {t t' : Nat}
    (hns : noSelf cp) (hab : a ≠ b) :
    noSelf (ainsert (ainsert cp a ⟨b, t⟩) b ⟨a, t'⟩) := by
  intro x lx hx
  rw [alookup_ainsert] at hx
  by_cases hxb : x = b
  · rw [if_pos hxb] at hx
    obtain rfl : (⟨a, t'⟩ : Link) = lx := Option.some_inj.mp hx
    exact fun he => hab ((show Link.id ⟨a, t'⟩ = x from he).trans hxb)
  · rw [if_neg hxb, alookup_ainsert] at hx
    by_cases hxa : x = a
    · rw [if_pos hxa] at hx
      obtain rfl : (⟨b, t⟩ : Link) = lx := Option.some_inj.mp hx
      exact fun he => hab.symm ((show Link.id ⟨b, t⟩ = x from he).trans hxa)
    · rw [if_neg hxa] at hx
      exact hns x lx hx

theorem symCP_unpair {cp : List (UserId × Link)} {u : UserId} {l : Link}
    (hsym : symCP cp) (hu : alookup cp u = some l) :
    symCP (aerase (aerase cp l.id) u) := by
  intro x lx hx
  rw [alookup_aerase] at hx
  by_cases hxu : x = u
  · rw [if_pos hxu] at hx; cases hx
  · rw [if_neg hxu, alookup_aerase] at hx
    by_cases hxp : x = l.id
    · rw [if_pos hxp] at hx; cases hx
    · rw [if_neg hxp] at hx
      obtain ⟨lb, hlb, hlbid⟩ := hsym x lx hx
      have hxid_u : lx.id ≠ u := by
        intro he
        rw [he, hu] at hlb
        obtain rfl : l = lb := Option.some_inj.mp hlb
        exact hxp hlbid.symm
      have hxid_p : lx.id ≠ l.id := by
        intro he
        obtain ⟨lp, hlp, hlpid⟩ := hsym u l hu
        rw [he, hlp] at hlb
        obtain rfl : lp = lb := Option.some_inj.mp hlb
        exact hxu (hlbid.symm.trans hlpid)
      refine ⟨lb, ?_, hlbid⟩
      rw [alookup_aerase, if_neg hxid_u, alookup_aerase, if_neg hxid_p]
      exact hlb

theorem noSelf_aerase {cp : List (UserId × Link)} (k : UserId) (hns : noSelf cp) :
    noSelf (aerase cp k) := by
  intro x lx hx
  rw [alookup_aerase] at hx
  by_cases hxk : x = k
  · rw [if_pos hxk] at hx; cases hx
  · rw [if_neg hxk] at hx; exact hns x lx hx

theorem serverInv_matchBody {s : ServerState} {a b : UserId} {rest : List UserId}
    (hq : s.waitingQueue = a :: b :: rest) (h : ServerInv s) :
    ServerInv (matchBody s a b rest) := by
  obtain ⟨hsym, hself, hqn, hkn⟩ := h
  rw [hq] at hqn
  simp only [List.nodup_cons, List.mem_cons, not_or] at hqn
  obtain ⟨⟨hab, haR⟩, hbR, hrest⟩ := hqn
  have hba : b ≠ a := fun he => hab he.symm
  simp only [matchBody]
  by_cases hcond : (((alookup s.userSockets a).isNone || (alookup s.userSockets b).isNone
      || (alookup s.currentPartner a).isSome || (alookup s.currentPartner b).isSome) = true)
  · rw [if_pos hcond]
    refine ⟨hsym, hself, ?_, hkn⟩
    show List.Nodup _
    by_cases hA : ((alookup s.userSockets a).isSome
        && (alookup s.currentPartner a).isNone) = true
    · by_cases hB : ((alookup s.userSockets b).isSome
          && (alookup s.currentPartner b).isNone) = true
      · rw [if_pos hA, if_pos hB]
        refine nodup_append_one (nodup_append_one hrest haR) ?_
        simp [List.mem_append, hbR, hba]
      · rw [if_pos hA, if_neg hB]
        exact nodup_append_one hrest haR
    · by_cases hB : ((alookup s.userSockets b).isSome
          && (alookup s.currentPartner b).isNone) = true
      · rw [if_neg hA, if_pos hB]
        exact nodup_append_one hrest hbR
      · rw [if_neg hA, if_neg hB]
        exact hrest
  · simp only [Bool.or_eq_true, not_or, Bool.not_eq_true] at hcond
    obtain ⟨⟨⟨hsaF, hsbF⟩, hpaF⟩, hpbF⟩ := hcond
    have hpa : alookup s.currentPartner a = none := opt_none_of_isSome_false hpaF
    have hpb : alookup s.currentPartner b = none := opt_none_of_isSome_false hpbF
    have hcondF : (((alookup s.userSockets a).isNone || (alookup s.userSockets b).isNone
        || (alookup s.currentPartner a).isSome || (alookup s.currentPartner b).isSome)
          = true) = False := by
      simp [hsaF, hsbF, hpaF, hpbF]
    rw [if_neg (by simp [hsaF, hsbF, hpaF, hpbF])]
    by_cases hok : (sockSendOk (alookup s.userSockets a)
        && sockSendOk (alookup s.userSockets b)) = true
    · rw [if_pos hok]
      exact ⟨symCP_pair hsym hpa hpb hab, noSelf_pair hself hab, hrest, hkn⟩
    · rw [if_neg hok]
      exact ⟨symCP_pair hsym hpa hpb hab, noSelf_pair hself hab,
        nodup_append_two hrest haR hbR hab, hkn⟩

theorem serverInv_matchIteration {s s' : ServerState} (h : ServerInv s)
    (hmi : matchIteration s = some s') : ServerInv s' := by
  obtain ⟨a, b, rest, hq, rfl⟩ := matchIteration_some hmi
  exact serverInv_matchBody hq h

theorem serverInv_tryMatchGo (fuel : Nat) :
    ∀ {s : ServerState}, ServerInv s → ServerInv (tryMatchGo fuel s) := by
  induction fuel with
  | zero => intro s h; exact h
  | succ n ih =>
    intro s h
    unfold tryMatchGo
    cases hmi : matchIteration s with
    | none => exact h
    | some s' => exact ih (serverInv_matchIteration h hmi)

theorem serverInv_tryMatch {s : ServerState} (h : ServerInv s) :
    ServerInv (tryMatch s) :=
  serverInv_tryMatchGo _ h

theorem serverInv_addUserToQueue {s : ServerState} (h : ServerInv s) (uid : UserId) :
    ServerInv (addUserToQueue s uid) := by
  unfold addUserToQueue
  by_cases hm : uid ∈ s.waitingQueue
  · rw [if_pos hm]; exact h
  · rw [if_neg hm]
    apply serverInv_tryMatch
    obtain ⟨h1, h2, h3, h4⟩ := h
    exact ⟨h1, h2, nodup_append_one h3 hm, h4⟩

theorem serverInv_handleHangup {s : ServerState} (h : ServerInv s) (uid : UserId) :
    ServerInv (handleHangup s uid) := by
  obtain ⟨hsym, hself, hqn, hkn⟩ := h
  unfold handleHangup
  cases hu : alookup s.currentPartner uid with
  | none => exact ⟨hsym, hself, hqn, hkn⟩
  | some link =>
    refine ⟨?_, ?_, ?_, ?_⟩
    · show symCP (aerase (aerase (sendTo s link.id .hangup).currentPartner link.id) uid)
      rw [sendTo_partner]
      exact symCP_unpair hsym hu
    · show noSelf (aerase (aerase (sendTo s link.id .hangup).currentPartner link.id) uid)
      rw [sendTo_partner]
      exact noSelf_aerase _ (noSelf_aerase _ hself)
    · show List.Nodup (sendTo s link.id .hangup).waitingQueue
      rw [sendTo_queue]
      exact hqn
    · show List.Nodup ((sendTo s link.id .hangup).userSockets.map Prod.fst)
      rw [sendTo_sockets]
      exact hkn

theorem serverInv_handleSkip {s : ServerState} (h : ServerInv s) (uid : UserId) :
    ServerInv (handleSkip s uid) :=
  serverInv_addUserToQueue (serverInv_handleHangup h uid) uid

theorem serverInv_handleMessage {s : ServerState} (h : ServerInv s)
    (uid : UserId) (m : InMsg) : ServerInv (handleMessage s uid m) := by
  unfold handleMessage
  cases m with
  | sig kind toId origin payload =>
    cases toId with
    | none => exact h
    | some t => exact inv_sendTo h t _
  | netQuality toId q =>
    cases toId with
    | none => exact h
    | some t => exact inv_sendTo h t _
  | skip => exact serverInv_handleSkip h uid
  | hangup => exact serverInv_handleHangup h uid

theorem serverInv_handleClose {s : ServerState} (h : ServerInv s) (uid : UserId) :
    ServerInv (handleClose s uid) := by
  unfold handleClose
  have h1 := serverInv_handleHangup h uid
  have h2 := inv_removeFromQueue h1 uid
  obtain ⟨i1, i2, i3, i4⟩ := h2
  exact ⟨i1, i2, i3, keys_nodup_aerase _ _ i4⟩

theorem serverInv_handleConnect {s : ServerState} (h : ServerInv s)
    (uid : UserId) (sendOk : Bool) : ServerInv (handleConnect s uid sendOk) := by
  unfold handleConnect
  apply inv_sendTo
  apply inv_sendTo
  apply serverInv_addUserToQueue
  obtain ⟨h1, h2, h3, h4⟩ := h
  exact ⟨h1, h2, h3, keys_nodup_ainsert _ _ _ h4⟩

theorem serverInv_handlePong {s : ServerState} (h : ServerInv s) (uid : UserId) :
    ServerInv (handlePong s uid) := by
  unfold handlePong
  cases hu : alookup s.userSockets uid with
  | none => exact h
  | some sock =>
    obtain ⟨h1, h2, h3, h4⟩ := h
    exact ⟨h1, h2, h3, keys_nodup_ainsert _ _ _ h4⟩

theorem serverInv_sweepSocket {s : ServerState} (h : ServerInv s) (uid : UserId) :
    ServerInv (sweepSocket s uid) := by
  unfold sweepSocket
  cases hu : alookup s.userSockets uid with
  | none => exact h
  | some sock =>
    by_cases ha : sock.isAlive = true
    · simp only [ha, if_true]
      obtain ⟨h1, h2, h3, h4⟩ := h
      exact ⟨h1, h2, h3, keys_nodup_ainsert _ _ _ h4⟩
    · simp only [Bool.not_eq_true] at ha
      simp only [ha, Bool.false_eq_true, if_false]
      exact serverInv_handleClose h uid

theorem serverInv_foldl {f : ServerState → UserId → ServerState}
    (hf : ∀ s x, ServerInv s → ServerInv (f s x)) :
    ∀ (l : List UserId) (s : ServerState), ServerInv s → ServerInv (List.foldl f s l) := by
  intro l
  induction l with
  | nil => intro s h; exact h
  | cons x t ih => intro s h; exact ih (f s x) (hf s x h)

theorem serverInv_sweep {s : ServerState} (h : ServerInv s) : ServerInv (sweep s) :=
  serverInv_foldl (fun s x hs => serverInv_sweepSocket hs x) _ s h

theorem serverInv_fireTimer {s : ServerState} (h : ServerInv s) (uid : UserId) :
    ServerInv (fireTimer s uid) := by
  unfold fireTimer
  by_cases hm : uid ∈ s.pendingTimers
  · rw [if_pos hm]
    apply serverInv_addUserToQueue
    exact h
  · rw [if_neg hm]; exact h

theorem serverInv_step {s : ServerState} (h : ServerInv s) (e : Event) :
    ServerInv (step s e) := by
  cases e with
  | connect id sendOk => exact serverInv_handleConnect h id sendOk
  | message id m =>
    show ServerInv (if _ then _ else _)
    by_cases hr : ((alookup s.userSockets id).isSome = true)
    · rw [if_pos hr]; exact serverInv_handleMessage h id m
    · rw [if_neg hr]; exact h
  | close id =>
    show ServerInv (if _ then _ else _)
    by_cases hr : ((alookup s.userSockets id).isSome = true)
    · rw [if_pos hr]; exact serverInv_handleClose h id
    · rw [if_neg hr]; exact h
  | timerFire id => exact serverInv_fireTimer h id
  | pong id => exact serverInv_handlePong h id
  | sweep => exact serverInv_sweep h
  | tick dt => exact h

/-- Every reachable state satisfies the master invariant. -/
theorem reachable_serverInv {s : ServerState} (h : Reachable s) : ServerInv s := by
  induction h with
  | init =>
    refine ⟨?_, ?_, ?_, ?_⟩ <;> first
      | exact List.nodup_nil
      | intro x lx hx; cases hx
  | connect hr hfresh ih => exact serverInv_step ih _
  | message hr ih => exact serverInv_step ih _
  | close hr ih => exact serverInv_step ih _
  | timerFire hr ih => exact serverInv_step ih _
  | pong hr ih => exact serverInv_step ih _
  | sweep hr ih => exact serverInv_step ih _
  | tick hr ih => exact serverInv_step ih _

theorem handleHangup_sockets (s : ServerState) (uid : UserId) :
    (handleHangup s uid).userSockets = s.userSockets := by
  unfold handleHangup
  cases hu : alookup s.currentPartner uid with
  | none => rfl
  | some link => exact sendTo_sockets s link.id .hangup

theorem handleHangup_queue (s : ServerState) (uid : UserId) :
    (handleHangup s uid).waitingQueue = s.waitingQueue := by
  unfold handleHangup
  cases hu : alookup s.currentPartner uid with
  | none => rfl
  | some link => exact sendTo_queue s link.id .hangup

theorem handleClose_sockets (s : ServerState) (uid : UserId) :
    (handleClose s uid).userSockets = aerase s.userSockets uid := by
  show aerase (handleHangup s uid).userSockets uid = _
  rw [handleHangup_sockets]

theorem handleClose_queue (s : ServerState) (uid : UserId) :
    (handleClose s uid).waitingQueue = s.waitingQueue.erase uid := by
  show (handleHangup s uid).waitingQueue.erase uid = _
  rw [handleHangup_queue]

theorem sendTo_msgs_extend (s : ServerState) (u : UserId) (m : OutMsg) :
    ∃ ext, (sendTo s u m).msgs = s.msgs ++ ext := by
  unfold sendTo
  cases alookup s.userSockets u with
  | none => exact ⟨[], by simp⟩
  | some sock =>
    by_cases h : sock.sendOk = true
    · exact ⟨[(u, m)], by simp [h]⟩
    · simp only [Bool.not_eq_true] at h
      exact ⟨[], by simp [h]⟩

theorem handleHangup_msgs_extend (s : ServerState) (uid : UserId) :
    ∃ ext, (handleHangup s uid).msgs = s.msgs ++ ext := by
  unfold handleHangup
  cases hu : alookup s.currentPartner uid with
  | none => exact ⟨[], by simp⟩
  | some link => exact sendTo_msgs_extend s link.id .hangup

theorem sweepSocket_msgs_extend (s : ServerState) (j : UserId) :
    ∃ ext, (sweepSocket s j).msgs = s.msgs ++ ext := by
  unfold sweepSocket
  cases hj : alookup s.userSockets j with
  | none => exact ⟨[], by simp⟩
  | some sock =>
    by_cases ha : sock.isAlive = true
    · exact ⟨[(j, .ping)], by simp [ha]⟩
    · simp only [Bool.not_eq_true] at ha
      simp only [ha, Bool.false_eq_true, if_false]
      exact handleHangup_msgs_extend s j

theorem foldl_sweep_msgs_mem {x : UserId × OutMsg} :
    ∀ (l : List UserId) (s : ServerState), x ∈ s.msgs →
      x ∈ (List.foldl sweepSocket s l).msgs := by
  intro l
  induction l with
  | nil => intro s h; exact h
  | cons j t ih =>
    intro s h
    apply ih
    obtain ⟨ext, hext⟩ := sweepSocket_msgs_extend s j
    rw [hext]
    exact List.mem_append_left _ h

theorem sweepSocket_other_socket {s : ServerState} {j id : UserId} (hne : j ≠ id) :
    alookup (sweepSocket s j).userSockets id = alookup s.userSockets id := by
  unfold sweepSocket
  cases hj : alookup s.userSockets j with
  | none => rfl
  | some sock =>
    by_cases ha : sock.isAlive = true
    · simp only [ha, if_true]
      exact alookup_ainsert_ne _ _ _ _ (fun he => hne he.symm)
    · simp only [Bool.not_eq_true] at ha
      simp only [ha, Bool.false_eq_true, if_false]
      rw [handleClose_sockets, alookup_aerase, if_neg (fun he => hne he.symm)]

theorem sweepSocket_queue_no_new {s : ServerState} {id : UserId} (j : UserId)
    (h : id ∉ s.waitingQueue) : id ∉ (sweepSocket s j).waitingQueue := by
  unfold sweepSocket
  cases hj : alookup s.userSockets j with
  | none => exact h
  | some sock =>
    by_cases ha : sock.isAlive = true
    · simp only [ha, if_true]; exact h
    · simp only [Bool.not_eq_true] at ha
      simp only [ha, Bool.false_eq_true, if_false]
      rw [handleClose_queue]
      exact fun hmem => h (List.mem_of_mem_erase hmem)

theorem sweepSocket_unreg {s : ServerState} {id : UserId} (j : UserId)
    (h : alookup s.userSockets id = none) :
    alookup (sweepSocket s j).userSockets id = none := by
  by_cases hji : j = id
  · subst hji
    unfold sweepSocket
    rw [h]
    exact h
  · rw [sweepSocket_other_socket hji]; exact h

theorem foldl_sweep_unreg {id : UserId} :
    ∀ (l : List UserId) (s : ServerState),
      alookup s.userSockets id = none → id ∉ s.waitingQueue →
      alookup (List.foldl sweepSocket s l).userSockets id = none ∧
        id ∉ (List.foldl sweepSocket s l).waitingQueue := by
  intro l
  induction l with
  | nil => intro s h1 h2; exact ⟨h1, h2⟩
  | cons j t ih =>
    intro s h1 h2
    exact ih (sweepSocket s j) (sweepSocket_unreg j h1) (sweepSocket_queue_no_new j h2)

theorem foldl_sweep_other {id : UserId} :
    ∀ (l : List UserId) (s : ServerState), id ∉ l →
      alookup (List.foldl sweepSocket s l).userSockets id = alookup s.userSockets id := by
  intro l
  induction l with
  | nil => intro s _; rfl
  | cons j t ih =>
    intro s hnl
    simp only [List.mem_cons, not_or] at hnl
    rw [List.foldl_cons, ih (sweepSocket s j) hnl.2,
      sweepSocket_other_socket (fun he => hnl.1 he.symm)]

theorem alookup_mem_keys {β : Type} {m : List (UserId × β)} {k : UserId} {v : β}
    (h : alookup m k = some v) : k ∈ m.map Prod.fst := by
  induction m with
  | nil => cases h
  | cons p t ih =>
    obtain ⟨k', v'⟩ := p
    rw [alookup_cons] at h
    by_cases hk : k' = k
    · simp [hk]
    · rw [if_neg hk] at h
      simp [ih h]

theorem nodup_split_mem {l : List UserId} {id : UserId} (hmem : id ∈ l) (hnd : l.Nodup) :
    ∃ l₁ l₂, l = l₁ ++ id :: l₂ ∧ id ∉ l₁ ∧ id ∉ l₂ := by
  obtain ⟨l₁, l₂, rfl⟩ := List.append_of_mem hmem
  rw [List.nodup_append] at hnd
  obtain ⟨hn1, hn2, hdisj⟩ := hnd
  rw [List.nodup_cons] at hn2
  refine ⟨l₁, l₂, rfl, ?_, hn2.1⟩
  intro hin
  exact hdisj hin (List.mem_cons_self id l₂)

theorem sweepSocket_alive_eq {s : ServerState} {id : UserId} {sock : Socket}
    (hs : alookup s.userSockets id = some sock) (ha : sock.isAlive = true) :
    sweepSocket s id = { s with
      userSockets := ainsert s.userSockets id ⟨sock.sendOk, false⟩,
      msgs := s.msgs ++ [(id, .ping)] } := by
  unfold sweepSocket; rw [hs]; simp [ha]

/-- A registered connection whose `isAlive` flag is down is terminated by the
sweep, and termination fires the `close` handler: the eviction is literally
the client-disconnect teardown. -/
theorem sweepSocket_dead_eq {s : ServerState} {id : UserId} {sock : Socket}
    (hs : alookup s.userSockets id = some sock) (ha : sock.isAlive = false) :
    sweepSocket s id = handleClose s id := by
  unfold sweepSocket; rw [hs]; simp [ha]

theorem sweep_probe {s : ServerState} {id : UserId} {sock : Socket}
    (hkn : (s.userSockets.map Prod.fst).Nodup)
    (hs : alookup s.userSockets id = some sock) (ha : sock.isAlive = true) :
    alookup (sweep s).userSockets id = some ⟨sock.sendOk, false⟩ ∧
      (id, OutMsg.ping) ∈ (sweep s).msgs := by
  obtain ⟨l₁, l₂, hsplit, hn1, hn2⟩ := nodup_split_mem (alookup_mem_keys hs) hkn
  unfold sweep
  rw [hsplit, List.foldl_append, List.foldl_cons]
  have hlookA : alookup (List.foldl sweepSocket s l₁).userSockets id = some sock := by
    rw [foldl_sweep_other l₁ s hn1]; exact hs
  rw [sweepSocket_alive_eq hlookA ha]
  constructor
  · rw [foldl_sweep_other l₂ _ hn2]
    exact alookup_ainsert_self _ _ _
  · apply foldl_sweep_msgs_mem
    simp

theorem sweep_evict {s : ServerState} {id : UserId} {sock : Socket}
    (hinv : ServerInv s)
    (hs : alookup s.userSockets id = some sock) (ha : sock.isAlive = false) :
    alookup (sweep s).userSockets id = none ∧ id ∉ (sweep s).waitingQueue := by
  obtain ⟨l₁, l₂, hsplit, hn1, hn2⟩ := nodup_split_mem (alookup_mem_keys hs) hinv.2.2.2
  unfold sweep
  rw [hsplit, List.foldl_append, List.foldl_cons]
  have hinvA : ServerInv (List.foldl sweepSocket s l₁) :=
    serverInv_foldl (fun s x hs => serverInv_sweepSocket hs x) l₁ s hinv
  have hlookA : alookup (List.foldl sweepSocket s l₁).userSockets id = some sock := by
    rw [foldl_sweep_other l₁ s hn1]; exact hs
  rw [sweepSocket_dead_eq hlookA ha]
  apply foldl_sweep_unreg l₂
  · rw [handleClose_sockets, alookup_aerase, if_pos rfl]
  · rw [handleClose_queue]
    exact hinvA.2.2.1.not_mem_erase

theorem matchBody_success {s : ServerState} {a b : UserId} {sockA sockB : Socket}
    (rest : List UserId)
    (hsa : alookup s.userSockets a = some sockA)
    (hsb : alookup s.userSockets b = some sockB)
    (hpa : alookup s.currentPartner a = none)
    (hpb : alookup s.currentPartner b = none)
    (hokA : sockA.sendOk = true) (hokB : sockB.sendOk = true) :
    matchBody s a b rest = { s with
      waitingQueue := rest,
      currentPartner := ainsert (ainsert s.currentPartner a ⟨b, s.now⟩) b ⟨a, s.now⟩,
      records := s.records ++ [⟨a, b, 0⟩],
      msgs := s.msgs ++ [(a, .matched b (some "caller")), (b, .matched a none),
        (a, .activeUsers s.userSockets.length), (b, .activeUsers s.userSockets.length)] } := by
  simp [matchBody, hsa, hsb, hpa, hpb, sockSendOk, hokA, hokB]

theorem matchBody_sendfail {s : ServerState} {a b : UserId} {sockA sockB : Socket}
    (rest : List UserId)
    (hsa : alookup s.userSockets a = some sockA)
    (hsb : alookup s.userSockets b = some sockB)
    (hpa : alookup s.currentPartner a = none)
    (hpb : alookup s.currentPartner b = none)
    (hfail : (sockA.sendOk && sockB.sendOk) = false) :
    matchBody s a b rest = { s with
      waitingQueue := rest ++ [a, b],
      currentPartner := ainsert (ainsert s.currentPartner a ⟨b, s.now⟩) b ⟨a, s.now⟩,
      records := s.records ++ [⟨a, b, 0⟩],
      msgs := s.msgs ++
        (if sockA.sendOk then [(a, OutMsg.matched b (some "caller"))] else []) } := by
  simp [matchBody, hsa, hsb, hpa, hpb, sockSendOk, hfail]

theorem matchBody_both_paired {s : ServerState} {a b : UserId} {la lb : Link}
    (rest : List UserId)
    (hpa : alookup s.currentPartner a = some la)
    (hpb : alookup s.currentPartner b = some lb) :
    matchBody s a b rest = { s with waitingQueue := rest } := by
  simp [matchBody, hpa, hpb]

theorem tryMatchGo_succ_some {s s' : ServerState} {n : Nat}
    (h : matchIteration s = some s') : tryMatchGo (n + 1) s = tryMatchGo n s' := by
  have he : tryMatchGo (n + 1) s = match matchIteration s with
      | some s2 => tryMatchGo n s2
      | none => s := rfl
  rw [he, h]

/-- One loop iteration does not change the final result of the drain loop:
`tryMatch` is the loop's fixed point (this uses `tryMatchGo_irrel`, i.e. the
fuel plays no role). -/
theorem tryMatch_unfold {s s' : ServerState} (h : matchIteration s = some s') :
    tryMatch s = tryMatch s' := by
  unfold tryMatch
  have hlt := tmMeasure_decrease h
  obtain ⟨m, hm⟩ : ∃ m, tmMeasure s = m + 1 := ⟨tmMeasure s - 1, by omega⟩
  rw [hm, tryMatchGo_succ_some h]
  exact tryMatchGo_irrel m (tmMeasure s') s' (by omega) (le_refl _)

theorem tryMatch_fix {s : ServerState} (h : matchIteration s = none) :
    tryMatch s = s :=
  tryMatchGo_none h _

theorem handleHangup_paired_eq {s : ServerState} {a : UserId} {link : Link}
    (hlink : alookup s.currentPartner a = some link) :
    handleHangup s a = { sendTo s link.id .hangup with
      records := (sendTo s link.id .hangup).records ++
        [⟨a, link.id, s.now - link.startTime⟩],
      currentPartner :=
        aerase (aerase (sendTo s link.id .hangup).currentPartner link.id) a,
      pendingTimers := (sendTo s link.id .hangup).pendingTimers ++ [link.id] } := by
  unfold handleHangup
  rw [hlink]

theorem handleHangup_none_eq {s : ServerState} {a : UserId}
    (h : alookup s.currentPartner a = none) : handleHangup s a = s := by
  unfold handleHangup
  rw [h]

theorem handleHangup_cp_paired {s : ServerState} {a : UserId} {link : Link}
    (hlink : alookup s.currentPartner a = some link) :
    (handleHangup s a).currentPartner =
      aerase (aerase s.currentPartner link.id) a := by
  rw [handleHangup_paired_eq hlink]
  show aerase (aerase (sendTo s link.id .hangup).currentPartner link.id) a = _
  rw [sendTo_partner]

theorem handleHangup_timers_paired {s : ServerState} {a : UserId} {link : Link}
    (hlink : alookup s.currentPartner a = some link) :
    (handleHangup s a).pendingTimers = s.pendingTimers ++ [link.id] := by
  rw [handleHangup_paired_eq hlink]
  show (sendTo s link.id .hangup).pendingTimers ++ [link.id] = _
  rw [sendTo_timers]

theorem handleHangup_records_paired {s : ServerState} {a : UserId} {link : Link}
    (hlink : alookup s.currentPartner a = some link) :
    (handleHangup s a).records =
      s.records ++ [⟨a, link.id, s.now - link.startTime⟩] := by
  rw [handleHangup_paired_eq hlink]
  show (sendTo s link.id .hangup).records ++ _ = _
  rw [sendTo_records]

theorem handleHangup_msgs_delivered {s : ServerState} {a : UserId} {link : Link}
    {sock : Socket} (hlink : alookup s.currentPartner a = some link)
    (hsock : alookup s.userSockets link.id = some sock) (hok : sock.sendOk = true) :
    (handleHangup s a).msgs = s.msgs ++ [(link.id, OutMsg.hangup)] := by
  rw [handleHangup_paired_eq hlink]
  show (sendTo s link.id .hangup).msgs = _
  rw [sendTo_msgs_delivered hsock hok]

theorem handleHangup_msgs_skip {s : ServerState} {a : UserId} {link : Link}
    (hlink : alookup s.currentPartner a = some link)
    (hsock : alookup s.userSockets link.id = none) :
    (handleHangup s a).msgs = s.msgs := by
  rw [handleHangup_paired_eq hlink]
  show (sendTo s link.id .hangup).msgs = _
  rw [sendTo_eq_self_of_none hsock]

/-- **C7**: for an id `a` currently paired (`currentPartner[a] = link`),
`handleHangup(a)` sends `link.id` a hangup notification only if that peer is
still registered (silently skipping otherwise, and also when the peer's
transport rejects the write), records a call duration equal to
`now - link.startTime`, and deletes both directory entries before
returning — the handler is one synchronous step of the embedding, so no
state with only one side cleared is ever observable.  For an unpaired id,
`handleHangup` is a no-op. -/
theorem c7_teardown_behaviour (s : ServerState) (a : UserId) :
    (∀ link, alookup s.currentPartner a = some link →
      ((alookup s.userSockets link.id = none → (handleHangup s a).msgs = s.msgs) ∧
       (∀ sock, alookup s.userSockets link.id = some sock → sock.sendOk = true →
         (handleHangup s a).msgs = s.msgs ++ [(link.id, OutMsg.hangup)]) ∧
       (handleHangup s a).records =
         s.records ++ [⟨a, link.id, s.now - link.startTime⟩] ∧
       alookup (handleHangup s a).currentPartner a = none ∧
       alookup (handleHangup s a).currentPartner link.id = none)) ∧
    (alookup s.currentPartner a = none → handleHangup s a = s) := by
  constructor
  · intro link hlink
    refine ⟨fun hnone => handleHangup_msgs_skip hlink hnone,
      fun sock hsock hok => handleHangup_msgs_delivered hlink hsock hok,
      handleHangup_records_paired hlink, ?_, ?_⟩
    · rw [handleHangup_cp_paired hlink, alookup_aerase, if_pos rfl]
    · rw [handleHangup_cp_paired hlink, alookup_aerase]
      by_cases hpa : link.id = a
      · rw [if_pos hpa]
      · rw [if_neg hpa, alookup_aerase, if_pos rfl]
  · exact fun h => handleHangup_none_eq h

theorem c7_teardown_behaviour_witness :
    (handleHangup c7State "a").records = c7State.records ++ [⟨"a", "b", 0⟩] ∧
    alookup (handleHangup c7State "a").currentPartner "a" = none ∧
    alookup (handleHangup c7State "a").currentPartner "b" = none ∧
    (handleHangup c7State "a").msgs = c7State.msgs ++ [("b", OutMsg.hangup)] := by
  have h := (c7_teardown_behaviour c7State "a").1 ⟨"b", 0⟩ (by decide)
  exact ⟨h.2.2.1, h.2.2.2.1, h.2.2.2.2,
    h.2.1 ⟨true, true⟩ (by decide) rfl⟩

/-- **C4**: in every reachable state the waiting queue contains no
duplicate id — every inserting path (`addUserToQueue` on connect, skip's
immediate re-enqueue, the deferred timer re-enqueue, and both push-back
paths inside the matching pass) preserves it. -/
theorem c4_queue_nodup {s : ServerState} (h : Reachable s) :
    s.waitingQueue.Nodup :=
  (reachable_serverInv h).2.2.1

theorem c4_queue_nodup_witness : c4State.waitingQueue.Nodup :=
  c4_queue_nodup
    (Reachable.connect
      (Reachable.connect (Reachable.connect Reachable.init (by decide)) (by decide))
      (by decide))

/-- **C10**: in every reachable state no id is paired with itself:
every `currentPartner` entry points to a different id. -/
theorem c10_no_self_pairing {s : ServerState} (h : Reachable s) :
    ∀ a la, alookup s.currentPartner a = some la → la.id ≠ a :=
  (reachable_serverInv h).2.1

theorem c10_no_self_pairing_witness : ("b" : UserId) ≠ "a" := by
  have h := c10_no_self_pairing
    (Reachable.connect (Reachable.connect Reachable.init (by decide)) (by decide))
    "a" ⟨"b", 0⟩ (show alookup c10State.currentPartner "a" = some ⟨"b", 0⟩ by decide)
  exact h

/-- **C3 (amended)**: in every reachable state the partner directory is
symmetric — `currentPartner[a]` points to `b` iff `currentPartner[b]`
points to `a`.  (The second half of the original claim — that no id is
simultaneously queued and paired — fails on the code; see
`c3_counterexample`.) -/
theorem c3_directory_symmetric {s : ServerState} (h : Reachable s) (a b : UserId) :
    (∃ la, alookup s.currentPartner a = some la ∧ la.id = b) ↔
    (∃ lb, alookup s.currentPartner b = some lb ∧ lb.id = a) := by
  have hsym := (reachable_serverInv h).1
  constructor
  · rintro ⟨la, hla, hid⟩
    obtain ⟨lb, hlb, hlbid⟩ := hsym a la hla
    exact ⟨lb, hid ▸ hlb, hlbid⟩
  · rintro ⟨lb, hlb, hid⟩
    obtain ⟨la, hla, hlaid⟩ := hsym b lb hlb
    exact ⟨la, hid ▸ hla, hlaid⟩

theorem c3_directory_symmetric_witness :
    ∃ lb, alookup c3State.currentPartner "b" = some lb ∧ lb.id = "a" :=
  (c3_directory_symmetric
    (Reachable.connect (Reachable.connect Reachable.init (by decide)) (by decide))
    "a" "b").mp ⟨⟨"b", 0⟩, by decide, rfl⟩

/-- **C3 is refuted as stated**: `c3CtrState` is reachable, yet `"b"` is in
the waiting queue while it also holds a `currentPartner` entry (paired with
`"c"`). -/
theorem c3_counterexample :
    Reachable c3CtrState ∧ ("b" : UserId) ∈ c3CtrState.waitingQueue ∧
      alookup c3CtrState.currentPartner "b" = some ⟨"c", 0⟩ := by
  refine ⟨?_, by decide, by decide⟩
  exact Reachable.timerFire (Reachable.connect (Reachable.message (Reachable.message
    (Reachable.connect (Reachable.connect Reachable.init (by decide)) (by decide))))
    (by decide))

/-- **C1 fails on the code**: after the trace above — reachable, and b's
connection disconnected during the delay window — the fired deferred task
has placed the unregistered id `"b"` back into the waiting queue, which the
claim (and §4.3 / §8 of the specification) says must never happen. -/
theorem c1_dead_id_requeued :
    Reachable c1CtrState ∧
    alookup c1CtrState.userSockets "b" = none ∧
    alookup c1CtrState.currentPartner "b" = none ∧
    ("b" : UserId) ∈ c1CtrState.waitingQueue := by
  refine ⟨?_, by decide, by decide, by decide⟩
  exact Reachable.timerFire (Reachable.close (Reachable.message
    (Reachable.connect (Reachable.connect Reachable.init (by decide)) (by decide))))

/-- **C2 fails on the code**: after the send failure is handled, both ids
still hold their `PartnerLink` directory entries (the claim requires every
entry already created for the pair to be destroyed), and — because the
loop immediately re-pops the requeued pair and discards it — neither id
even remains in the waiting queue; a received no message at all (the
failed send is not retried). -/
theorem c2_counterexample :
    Reachable c2CtrState ∧
    alookup c2CtrState.currentPartner "a" = some ⟨"b", 0⟩ ∧
    alookup c2CtrState.currentPartner "b" = some ⟨"a", 0⟩ ∧
    ("a" : UserId) ∉ c2CtrState.waitingQueue ∧
    ("b" : UserId) ∉ c2CtrState.waitingQueue ∧
    (∀ p ∈ c2CtrState.msgs, p.1 ≠ "a") := by
  refine ⟨?_, by decide, by decide, by decide, by decide, by decide⟩
  exact Reachable.connect (Reachable.connect Reachable.init (by decide)) (by decide)

/-- **C2 (amended)**: when the matching pass pops a valid pair `(a, b)` and
a notification send fails, the catch block pushes both (still-registered)
ids back onto the queue tail with the two just-created `PartnerLink`
entries left in place — they are not destroyed.  The continuing drain loop
then pops the requeued pair, finds both sides already partnered, and drops
both from the queue: after the pass, the queue is empty, both directory
entries remain, exactly one `Connection` record was saved, and the only
message ever delivered is the one sent before the failure (no retry). -/
theorem c2_sendfail_compensation {s : ServerState} {a b : UserId}
    {sockA sockB : Socket}
    (hq : s.waitingQueue = [a, b]) (hab : a ≠ b)
    (hsa : alookup s.userSockets a = some sockA)
    (hsb : alookup s.userSockets b = some sockB)
    (hpa : alookup s.currentPartner a = none)
    (hpb : alookup s.currentPartner b = none)
    (hfail : (sockA.sendOk && sockB.sendOk) = false) :
    ((matchBody s a b []).waitingQueue = [a, b] ∧
     alookup (matchBody s a b []).currentPartner a = some ⟨b, s.now⟩ ∧
     alookup (matchBody s a b []).currentPartner b = some ⟨a, s.now⟩) ∧
    ((tryMatch s).waitingQueue = [] ∧
     alookup (tryMatch s).currentPartner a = some ⟨b, s.now⟩ ∧
     alookup (tryMatch s).currentPartner b = some ⟨a, s.now⟩ ∧
     (tryMatch s).msgs = s.msgs ++
       (if sockA.sendOk then [(a, OutMsg.matched b (some "caller"))] else []) ∧
     (tryMatch s).records = s.records ++ [⟨a, b, 0⟩]) := by
  have hcpa : alookup (ainsert (ainsert s.currentPartner a ⟨b, s.now⟩) b ⟨a, s.now⟩) a
      = some ⟨b, s.now⟩ := by
    rw [alookup_ainsert_ne _ _ _ _ hab, alookup_ainsert_self]
  have hcpb : alookup (ainsert (ainsert s.currentPartner a ⟨b, s.now⟩) b ⟨a, s.now⟩) b
      = some ⟨a, s.now⟩ := alookup_ainsert_self _ _ _
  constructor
  · rw [matchBody_sendfail [] hsa hsb hpa hpb hfail]
    exact ⟨rfl, hcpa, hcpb⟩
  · rw [tryMatch_unfold (matchIteration_cons hq)]
    have hq2 : (matchBody s a b []).waitingQueue = a :: b :: [] := by
      rw [matchBody_sendfail [] hsa hsb hpa hpb hfail]
      rfl
    have hpa2 : alookup (matchBody s a b []).currentPartner a = some ⟨b, s.now⟩ := by
      rw [matchBody_sendfail [] hsa hsb hpa hpb hfail]; exact hcpa
    have hpb2 : alookup (matchBody s a b []).currentPartner b = some ⟨a, s.now⟩ := by
      rw [matchBody_sendfail [] hsa hsb hpa hpb hfail]; exact hcpb
    rw [tryMatch_unfold (matchIteration_cons hq2)]
    have h3 := matchBody_both_paired [] hpa2 hpb2
    have hq3 : (matchBody (matchBody s a b []) a b []).waitingQueue = [] := by
      rw [h3]
    rw [tryMatch_fix (matchIteration_nil hq3), h3,
      matchBody_sendfail [] hsa hsb hpa hpb hfail]
    exact ⟨rfl, hcpa, hcpb, rfl, rfl⟩

theorem c2_sendfail_compensation_witness :
    (tryMatch c2State).waitingQueue = [] ∧
    alookup (tryMatch c2State).currentPartner "a" = some ⟨"b", 3⟩ ∧
    alookup (tryMatch c2State).currentPartner "b" = some ⟨"a", 3⟩ ∧
    (tryMatch c2State).msgs = [] ∧
    (tryMatch c2State).records = [⟨"a", "b", 0⟩] := by
  have h := (c2_sendfail_compensation
    (show c2State.waitingQueue = ["a", "b"] from rfl) (by decide)
    (show alookup c2State.userSockets "a" = some ⟨false, true⟩ from rfl)
    (show alookup c2State.userSockets "b" = some ⟨true, true⟩ from rfl)
    rfl rfl rfl).2
  exact ⟨h.1, h.2.1, h.2.2.1, h.2.2.2.1, h.2.2.2.2⟩

/-- **C6 fails as stated**: in the reachable state `c6PreState`, a is paired
with b and e is waiting; `skip(a)` tears the a-b pair down and enqueues a
immediately — but the matching pass invoked by that very enqueue pops e and
a and pairs them, so after `skip(a)` returns, a is *not* in the waiting
queue (it is paired with e, and e — popped first — got the caller role). -/
theorem c6_counterexample :
    Reachable c6CtrState ∧
    alookup c6PreState.currentPartner "a" = some ⟨"b", 0⟩ ∧
    c6PreState.waitingQueue = ["e"] ∧
    ("a" : UserId) ∉ c6CtrState.waitingQueue ∧
    alookup c6CtrState.currentPartner "a" = some ⟨"e", 0⟩ := by
  refine ⟨?_, by decide, by decide, by decide, by decide⟩
  exact Reachable.message (Reachable.connect
    (Reachable.connect (Reachable.connect Reachable.init (by decide)) (by decide))
    (by decide))

/-- **C6 (amended)**: for a paired id `a` (partner `la.id`, a distinct id
whose socket is registered and accepts the write), when no other user is
waiting, `skip(a)` performs the teardown and then enqueues `a` immediately,
with no delay: after `handleSkip` returns, `a` is in the waiting queue and
the partner is not; the partner only gets a pending deferred-re-enqueue
timer; the partner receives the hangup notification and `a` receives no
message at all (in particular no hangup); both directory entries are gone.
(If another valid user is already waiting, the enqueue of `a` immediately
re-matches it — see `c6_counterexample` — which is why the empty-queue
hypothesis is needed.) -/
theorem c6_skip_immediate {s : ServerState} {a : UserId} {la : Link}
    {sockB : Socket}
    (hla : alookup s.currentPartner a = some la)
    (hab : la.id ≠ a)
    (hq : s.waitingQueue = [])
    (hsb : alookup s.userSockets la.id = some sockB) (hok : sockB.sendOk = true) :
    (handleSkip s a).waitingQueue = [a] ∧
    la.id ∉ (handleSkip s a).waitingQueue ∧
    (handleSkip s a).pendingTimers = s.pendingTimers ++ [la.id] ∧
    (handleSkip s a).msgs = s.msgs ++ [(la.id, OutMsg.hangup)] ∧
    alookup (handleSkip s a).currentPartner a = none ∧
    alookup (handleSkip s a).currentPartner la.id = none := by
  have hskip : handleSkip s a = { handleHangup s a with waitingQueue := [a] } := by
    unfold handleSkip addUserToQueue
    rw [handleHangup_queue, hq]
    simp only [List.not_mem_nil, if_false, List.nil_append]
    have hone : ({ handleHangup s a with waitingQueue := [a] } : ServerState).waitingQueue
        = [a] := rfl
    rw [tryMatch_fix (matchIteration_one hone)]
  rw [hskip]
  refine ⟨rfl, ?_, ?_, ?_, ?_, ?_⟩
  · simp [hab]
  · show (handleHangup s a).pendingTimers = _
    exact handleHangup_timers_paired hla
  · show (handleHangup s a).msgs = _
    exact handleHangup_msgs_delivered hla hsb hok
  · show alookup (handleHangup s a).currentPartner a = none
    rw [handleHangup_cp_paired hla, alookup_aerase, if_pos rfl]
  · show alookup (handleHangup s a).currentPartner la.id = none
    rw [handleHangup_cp_paired hla, alookup_aerase, if_neg hab, alookup_aerase,
      if_pos rfl]

theorem c6_skip_immediate_witness :
    (handleSkip c6State "a").waitingQueue = ["a"] ∧
    ("b" : UserId) ∉ (handleSkip c6State "a").waitingQueue ∧
    (handleSkip c6State "a").pendingTimers = c6State.pendingTimers ++ ["b"] ∧
    (handleSkip c6State "a").msgs = c6State.msgs ++ [("b", OutMsg.hangup)] ∧
    alookup (handleSkip c6State "a").currentPartner "a" = none ∧
    alookup (handleSkip c6State "a").currentPartner "b" = none := by
  exact c6_skip_immediate
    (show alookup c6State.currentPartner "a" = some ⟨"b", 0⟩ from rfl)
    (by decide) rfl
    (show alookup c6State.userSockets "b" = some ⟨true, true⟩ from rfl) rfl

/-- **C5**: a waiting queue `[a, b, c, d]` of four distinct, registered,
unpaired users (whose transports accept writes) is drained into exactly the
pairs `(a, b)` then `(c, d)` in that order; each first-popped id receives
`role: "caller"` in its match notification and each second-popped id's
notification has no role field.  The pass is a deterministic function of
the queue order — strict FIFO, never randomized. -/
theorem c5_fifo_pairing {s : ServerState} {a b c d : UserId}
    {sockA sockB sockC sockD : Socket}
    (hq : s.waitingQueue = [a, b, c, d])
    (hab : a ≠ b) (hac : a ≠ c) (had : a ≠ d)
    (hbc : b ≠ c) (hbd : b ≠ d) (hcd : c ≠ d)
    (hsa : alookup s.userSockets a = some sockA) (hokA : sockA.sendOk = true)
    (hsb : alookup s.userSockets b = some sockB) (hokB : sockB.sendOk = true)
    (hsc : alookup s.userSockets c = some sockC) (hokC : sockC.sendOk = true)
    (hsd : alookup s.userSockets d = some sockD) (hokD : sockD.sendOk = true)
    (hpa : alookup s.currentPartner a = none) (hpb : alookup s.currentPartner b = none)
    (hpc : alookup s.currentPartner c = none) (hpd : alookup s.currentPartner d = none) :
    (tryMatch s).waitingQueue = [] ∧
    alookup (tryMatch s).currentPartner a = some ⟨b, s.now⟩ ∧
    alookup (tryMatch s).currentPartner b = some ⟨a, s.now⟩ ∧
    alookup (tryMatch s).currentPartner c = some ⟨d, s.now⟩ ∧
    alookup (tryMatch s).currentPartner d = some ⟨c, s.now⟩ ∧
    (tryMatch s).msgs = s.msgs ++
      [(a, .matched b (some "caller")), (b, .matched a none),
       (a, .activeUsers s.userSockets.length), (b, .activeUsers s.userSockets.length),
       (c, .matched d (some "caller")), (d, .matched c none),
       (c, .activeUsers s.userSockets.length), (d, .activeUsers s.userSockets.length)]
    := by
  have hmb1 := matchBody_success [c, d] hsa hsb hpa hpb hokA hokB
  rw [tryMatch_unfold (matchIteration_cons hq)]
  have hq2 : (matchBody s a b [c, d]).waitingQueue = c :: d :: [] := by rw [hmb1]
  have hsc1 : alookup (matchBody s a b [c, d]).userSockets c = some sockC := by
    rw [hmb1]; exact hsc
  have hsd1 : alookup (matchBody s a b [c, d]).userSockets d = some sockD := by
    rw [hmb1]; exact hsd
  have hpc1 : alookup (matchBody s a b [c, d]).currentPartner c = none := by
    rw [hmb1]
    show alookup (ainsert (ainsert s.currentPartner a ⟨b, s.now⟩) b ⟨a, s.now⟩) c = none
    rw [alookup_ainsert_ne _ _ _ _ (Ne.symm hbc), alookup_ainsert_ne _ _ _ _ (Ne.symm hac)]
    exact hpc
  have hpd1 : alookup (matchBody s a b [c, d]).currentPartner d = none := by
    rw [hmb1]
    show alookup (ainsert (ainsert s.currentPartner a ⟨b, s.now⟩) b ⟨a, s.now⟩) d = none
    rw [alookup_ainsert_ne _ _ _ _ (Ne.symm hbd), alookup_ainsert_ne _ _ _ _ (Ne.symm had)]
    exact hpd
  rw [tryMatch_unfold (matchIteration_cons hq2)]
  have hmb2 := matchBody_success [] hsc1 hsd1 hpc1 hpd1 hokC hokD
  have hq3 : (matchBody (matchBody s a b [c, d]) c d []).waitingQueue = [] := by
    rw [hmb2]
  rw [tryMatch_fix (matchIteration_nil hq3), hmb2, hmb1]
  refine ⟨rfl, ?_, ?_, ?_, ?_, ?_⟩ <;>
    simp [alookup_ainsert, hab, hac, had, hbc, hbd, hcd, List.append_assoc]

theorem c5_fifo_pairing_witness :
    (tryMatch c5State).waitingQueue = [] ∧
    alookup (tryMatch c5State).currentPartner "a" = some ⟨"b", 7⟩ ∧
    alookup (tryMatch c5State).currentPartner "b" = some ⟨"a", 7⟩ ∧
    alookup (tryMatch c5State).currentPartner "c" = some ⟨"d", 7⟩ ∧
    alookup (tryMatch c5State).currentPartner "d" = some ⟨"c", 7⟩ ∧
    (tryMatch c5State).msgs = c5State.msgs ++
      [("a", .matched "b" (some "caller")), ("b", .matched "a" none),
       ("a", .activeUsers 4), ("b", .activeUsers 4),
       ("c", .matched "d" (some "caller")), ("d", .matched "c" none),
       ("c", .activeUsers 4), ("d", .activeUsers 4)] := by
  exact c5_fifo_pairing
    (show c5State.waitingQueue = ["a", "b", "c", "d"] from rfl)
    (by decide) (by decide) (by decide) (by decide) (by decide) (by decide)
    (show alookup c5State.userSockets "a" = some ⟨true, true⟩ from rfl) rfl
    (show alookup c5State.userSockets "b" = some ⟨true, true⟩ from rfl) rfl
    (show alookup c5State.userSockets "c" = some ⟨true, true⟩ from rfl) rfl
    (show alookup c5State.userSockets "d" = some ⟨true, true⟩ from rfl) rfl
    rfl rfl rfl rfl

/-- **C8 (amended)**: the relay.  For `offer`/`answer`/`candidate` with a
registered destination whose transport accepts the write, the message is
delivered with the `from` field overwritten to the true sender's id —
whatever `from` the client supplied is discarded — and the kind, `to`
field and payload unchanged; an unregistered destination means the message
is silently dropped, the state entirely unchanged, with no error to the
sender.  A `networkQualityUpdate`, however, is forwarded as a fresh
`{type, quality}` object: the quality is delivered, but no `from`/origin
field is attached (and the rest of the inbound payload is discarded); the
unregistered-destination case is the same silent drop. -/
theorem c8_relay_behaviour (s : ServerState) (senderId : UserId) :
    (∀ (kind : SigKind) (t : UserId) (origin : Option UserId) (payload : String)
        (sock : Socket), alookup s.userSockets t = some sock → sock.sendOk = true →
      handleMessage s senderId (.sig kind (some t) origin payload) =
        { s with msgs := s.msgs ++ [(t, .sigFwd kind (some t) senderId payload)] }) ∧
    (∀ (kind : SigKind) (t : UserId) (origin : Option UserId) (payload : String),
      alookup s.userSockets t = none →
      handleMessage s senderId (.sig kind (some t) origin payload) = s) ∧
    (∀ (t : UserId) (q : Nat) (sock : Socket),
      alookup s.userSockets t = some sock → sock.sendOk = true →
      handleMessage s senderId (.netQuality (some t) q) =
        { s with msgs := s.msgs ++ [(t, .netQualityFwd q)] }) ∧
    (∀ (t : UserId) (q : Nat), alookup s.userSockets t = none →
      handleMessage s senderId (.netQuality (some t) q) = s) := by
  refine ⟨?_, ?_, ?_, ?_⟩
  · intro kind t origin payload sock hs hok
    show sendTo s t (.sigFwd kind (some t) senderId payload) = _
    rw [sendTo_msgs_delivered hs hok]
  · intro kind t origin payload hs
    show sendTo s t (.sigFwd kind (some t) senderId payload) = s
    rw [sendTo_eq_self_of_none hs]
  · intro t q sock hs hok
    show sendTo s t (.netQualityFwd q) = _
    rw [sendTo_msgs_delivered hs hok]
  · intro t q hs
    show sendTo s t (.netQualityFwd q) = s
    rw [sendTo_eq_self_of_none hs]

theorem c8_relay_behaviour_witness :
    handleMessage c8State "y" (.sig .offer (some "x") (some "z") "sdp1") =
      { c8State with msgs :=
          c8State.msgs ++ [("x", .sigFwd .offer (some "x") "y" "sdp1")] } ∧
    handleMessage c8State "y" (.netQuality (some "x") 5) =
      { c8State with msgs := c8State.msgs ++ [("x", .netQualityFwd 5)] } ∧
    handleMessage c8State "y" (.sig .offer (some "nobody") none "sdp2") = c8State := by
  refine ⟨?_, ?_, ?_⟩
  · exact (c8_relay_behaviour c8State "y").1 .offer "x" (some "z") "sdp1"
      ⟨true, true⟩ (by decide) rfl
  · exact (c8_relay_behaviour c8State "y").2.2.1 "x" 5 ⟨true, true⟩ (by decide) rfl
  · exact (c8_relay_behaviour c8State "y").2.1 .offer "nobody" none "sdp2" (by decide)

/-- **C8 fails as stated for `networkQualityUpdate`**: two distinct
registered senders y and z sending the same quality report to x leave the
server in *identical* states — the message x receives is a bare
`{type, quality}` carrying no `from`/origin field, so it cannot have been
"overwritten to the true sender's id" as the claim demands for all four
message types. -/
theorem c8_counterexample :
    Reachable c8CtrState ∧ ("y" : UserId) ≠ "z" ∧
    step c8CtrState (.message "y" (.netQuality (some "x") 5)) =
      step c8CtrState (.message "z" (.netQuality (some "x") 5)) ∧
    (step c8CtrState (.message "y" (.netQuality (some "x") 5))).msgs =
      c8CtrState.msgs ++ [("x", OutMsg.netQualityFwd 5)] := by
  refine ⟨?_, by decide, by decide, by decide⟩
  exact Reachable.connect (Reachable.connect
    (Reachable.connect Reachable.init (by decide)) (by decide)) (by decide)

/-- **C9**: for a registered connection with `isAlive = true`, the sweep
leaves it registered with `isAlive` set to false and a probe sent (the
ping); a connection that has not replied by the next sweep (so `isAlive`
is still false) is evicted by that sweep: afterwards it is neither
registered nor in the waiting queue.  Moreover eviction runs literally the
client-disconnect teardown: for any state in which the id's socket has
`isAlive = false`, the sweep's action on it *is* `handleClose`. -/
theorem c9_liveness_sweep {s : ServerState} {id : UserId} {sock : Socket}
    (hr : Reachable s)
    (hs : alookup s.userSockets id = some sock) (ha : sock.isAlive = true) :
    (alookup (sweep s).userSockets id = some ⟨sock.sendOk, false⟩ ∧
      (id, OutMsg.ping) ∈ (sweep s).msgs) ∧
    (alookup (sweep (sweep s)).userSockets id = none ∧
      id ∉ (sweep (sweep s)).waitingQueue) ∧
    (∀ (s' : ServerState) (sock' : Socket), alookup s'.userSockets id = some sock' →
      sock'.isAlive = false → sweepSocket s' id = handleClose s' id) := by
  have hinv := reachable_serverInv hr
  have h1 := sweep_probe hinv.2.2.2 hs ha
  refine ⟨h1, ?_, fun s' sock' h f => sweepSocket_dead_eq h f⟩
  exact sweep_evict (serverInv_sweep hinv) h1.1 rfl

theorem c9_liveness_sweep_witness :
    alookup (sweep c9State).userSockets "a" = some ⟨true, false⟩ ∧
    ("a", OutMsg.ping) ∈ (sweep c9State).msgs ∧
    alookup (sweep (sweep c9State)).userSockets "a" = none ∧
    ("a" : UserId) ∉ (sweep (sweep c9State)).waitingQueue := by
  have h := c9_liveness_sweep
    (show Reachable c9State from Reachable.connect Reachable.init (by decide))
    (show alookup c9State.userSockets "a" = some ⟨true, true⟩ from rfl) rfl
  exact ⟨h.1.1, h.1.2, h.2.1.1, h.2.1.2⟩
